import Mathlib

/-!
Verification of the instructional PyTorch notebook `Lecture09_PyTorch.ipynb`.

The notebook's numeric values are embedded exactly: integer tensors as
`List ℤ`, floating-point tensors as `List ℚ` (the notebook only ever
produces values that are exact in floating point, so rational semantics
coincides with the executed semantics on every claim checked here).
Each cell's code is transliterated into a Lean definition; framework
calls whose behaviour the cell exercises (1-D `matmul`, `nn.Linear`,
`ReLU`, `MSELoss`, SGD, `state_dict` save/load) are embedded by their
documented elementwise semantics.
-/

namespace Lecture09

/-! ### Cell 10: basic arithmetic on 1-D integer tensors -/

/-- Elementwise product of two 1-D integer tensors (`a * b`). -/
def elemMul (a b : List ℤ) : List ℤ :=
  List.zipWith (· * ·) a b

/-- Dot product of 1-D integer tensors; `torch.matmul` on two 1-D
tensors returns this scalar (the notebook's cell prints `tensor(32)`). -/
def matmul1d (a b : List ℤ) : ℤ :=
  (List.zipWith (· * ·) a b).sum

/-- The tensor `a = torch.tensor([1, 2, 3])` of cell 10. -/
def tensorA : List ℤ := [1, 2, 3]

/-- The tensor `b = torch.tensor([4, 5, 6])` of cell 10. -/
def tensorB : List ℤ := [4, 5, 6]

/-! ### Cell 12: device selection -/

/-- The three devices the notebook can select. -/
inductive Device where
  | mps
  | cuda
  | cpu
deriving DecidableEq

/-- Cell 12's `if torch.backends.mps.is_available(): ... elif
torch.cuda.is_available(): ... else: ...` chain, as a total function of
the two availability flags. -/
def selectDevice (mpsAvailable cudaAvailable : Bool) : Device :=
  if mpsAvailable then Device.mps
  else if cudaAvailable then Device.cuda
  else Device.cpu

/-! ### Cell 14: autograd on a scalar expression

The cell builds `z = x**2 + y**3` from two gradient-tracked scalar
tensors and calls `z.backward()` once.  The expression built by the
cell is embedded as a tiny term language; its reverse-mode pass is
modelled from the spec: "automatic differentiation system that records
operations on tracked tensors to compute gradients via reverse
accumulation" (the autograd engine itself is framework code, not part
of this repository). -/

/-- The recorded operations on tracked scalar tensors that cell 14
performs: a tracked leaf tensor (identified by its variable id), an
addition, and an integer power. -/
inductive Expr where
  | leaf (id : ℕ) (val : ℚ)
  | add (a b : Expr)
  | pow (a : Expr) (n : ℕ)

/-- Forward evaluation of a recorded expression. -/
def Expr.eval : Expr → ℚ
  | .leaf _ v => v
  | .add a b => a.eval + b.eval
  | .pow a n => a.eval ^ n

/-- Modelled from the spec: reverse accumulation (`backward`).  Walks
the recorded graph backwards with an incoming adjoint `g`, returning
the accumulated gradient for each tracked leaf.  The sum rule sends the
adjoint to both branches; the power rule multiplies it by
`n * a^(n-1)`. -/
def Expr.backward : Expr → ℚ → ℕ → ℚ
  | .leaf i _, g => fun j => if j = i then g else 0
  | .add a b, g => fun j => a.backward g j + b.backward g j
  | .pow a n, g => a.backward (g * n * a.eval ^ (n - 1))

/-- The gradient map produced by `z.backward()` (seed adjoint 1). -/
def Expr.grad (e : Expr) : ℕ → ℚ := e.backward 1

/-- Cell 14's `x = torch.tensor(2.0, requires_grad=True)`. -/
def autogradX : Expr := Expr.leaf 0 2

/-- Cell 14's `y = torch.tensor(3.0, requires_grad=True)`. -/
def autogradY : Expr := Expr.leaf 1 3

/-- Cell 14's `z = x**2 + y**3`. -/
def autogradZ : Expr := Expr.add (Expr.pow autogradX 2) (Expr.pow autogradY 3)

/-! ### Cell 16: the `SimpleNN` module -/

/-- A vector of rationals (one row of a tensor). -/
abbrev Vec := List ℚ

/-- A matrix of rationals (a 2-D tensor, list of rows). -/
abbrev Mat := List Vec

/-- Dot product of two vectors. -/
def dot (a b : Vec) : ℚ :=
  (List.zipWith (· * ·) a b).sum

/-- An `nn.Linear` layer: a weight matrix (one row per output feature)
and a bias vector, applying the affine transform `W x + b`. -/
structure Linear where
  weight : Mat
  bias : Vec
deriving Repr

/-- The layer's forward computation (`Linear.forward`): the affine transform `x ↦ W x + b`. -/
def Linear.apply (l : Linear) (x : Vec) : Vec :=
  List.zipWith (fun row b => dot row x + b) l.weight l.bias

/-- Construction of `nn.Linear(inF, outF)`: it builds an `outF × inF` weight matrix and a
bias of length `outF`; the (randomly initialised) entries are supplied
by the functions `w` and `b`. -/
def mkLinear (inF outF : ℕ) (w : ℕ → ℕ → ℚ) (b : ℕ → ℚ) : Linear :=
  ⟨(List.range outF).map fun i => (List.range inF).map fun j => w i j,
   (List.range outF).map b⟩

/-- The `nn.ReLU` activation applied elementwise. -/
def reluVec (v : Vec) : Vec :=
  v.map fun t => max t 0

/-- The `SimpleNN` module of cell 16: exactly two linear sub-objects,
`layer1` and `layer2`. -/
structure SimpleNN where
  layer1 : Linear
  layer2 : Linear
deriving Repr

/-- Construction (`SimpleNN.__init__`): `layer1 = nn.Linear(10, 5)` and
`layer2 = nn.Linear(5, 1)`, with initial entries supplied by the given
functions. -/
def SimpleNN.init (w1 : ℕ → ℕ → ℚ) (b1 : ℕ → ℚ)
    (w2 : ℕ → ℕ → ℚ) (b2 : ℕ → ℚ) : SimpleNN :=
  ⟨mkLinear 10 5 w1 b1, mkLinear 5 1 w2 b2⟩

/-- The forward method (`SimpleNN.forward`), transliterated line by line:
`x = self.relu(self.layer1(x)); x = self.layer2(x); return x`. -/
def SimpleNN.forward (m : SimpleNN) (x : Vec) : Vec :=
  let x1 := reluVec (m.layer1.apply x)
  let x2 := m.layer2.apply x1
  x2

/-- Shape predicate for a linear layer: an `outF × inF` weight matrix
and a bias of length `outF`. -/
def Linear.hasShape (l : Linear) (inF outF : ℕ) : Prop :=
  l.weight.length = outF ∧ (∀ r ∈ l.weight, r.length = inF) ∧
    l.bias.length = outF

instance (l : Linear) (inF outF : ℕ) : Decidable (l.hasShape inF outF) := by
  unfold Linear.hasShape; infer_instance

/-- Well-formedness of a `SimpleNN`: the shapes `nn.Linear(10, 5)` and
`nn.Linear(5, 1)` fixed by `__init__`. -/
def SimpleNN.wf (m : SimpleNN) : Prop :=
  m.layer1.hasShape 10 5 ∧ m.layer2.hasShape 5 1

instance (m : SimpleNN) : Decidable m.wf := by
  unfold SimpleNN.wf; infer_instance

/-! ### Cell 18: the training loop

`X` is a `100 × 10` tensor and `y = 0.1 * sum(X, dim=1, keepdim=True)`
a `100 × 1` tensor; `criterion = nn.MSELoss()` (mean reduction) and
`optimizer = optim.SGD(model.parameters(), lr=0.01)`.  The loop body is
`outputs = model(X); loss = criterion(outputs, y);
optimizer.zero_grad(); loss.backward(); optimizer.step()`, for
`epoch in range(100)`, printing a loss line when `(epoch + 1) % 20 == 0`. -/

/-- Elementwise vector sum. -/
def vecAdd (a b : Vec) : Vec := List.zipWith (· + ·) a b

/-- Elementwise vector difference. -/
def vecSub (a b : Vec) : Vec := List.zipWith (· - ·) a b

/-- Scalar multiple of a vector. -/
def vecSmul (c : ℚ) (v : Vec) : Vec := v.map (c * ·)

/-- Outer product `u vᵀ` (rows indexed by `u`). -/
def outer (u v : Vec) : Mat := u.map fun ui => v.map fun vj => ui * vj

/-- Elementwise matrix sum. -/
def matAdd (A B : Mat) : Mat := List.zipWith vecAdd A B

/-- Elementwise matrix difference. -/
def matSub (A B : Mat) : Mat := List.zipWith vecSub A B

/-- Scalar multiple of a matrix. -/
def matSmul (c : ℚ) (A : Mat) : Mat := A.map (vecSmul c)

/-- The statement `outputs = model(X)`: the forward pass on the full dataset. -/
def modelOutputs (m : SimpleNN) (X : Mat) : Mat := X.map m.forward

/-- The criterion `nn.MSELoss()` with its default mean reduction: the mean of the
squared elementwise differences over every element of the output. -/
def mseLoss (outputs targets : Mat) : ℚ :=
  let sq := (List.zipWith
    (fun o t => (List.zipWith (fun a b => (a - b) ^ 2) o t).sum)
    outputs targets).sum
  sq / ((outputs.map List.length).sum : ℕ)

/-- The gradient buffers of the model's four parameter tensors. -/
structure Grads where
  gW1 : Mat
  gb1 : Vec
  gW2 : Mat
  gb2 : Vec

/-- The call `optimizer.zero_grad()`: gradient buffers of the parameters'
shapes, all zero. -/
def zeroGradsOf (m : SimpleNN) : Grads :=
  ⟨m.layer1.weight.map (List.map fun _ => 0),
   m.layer1.bias.map fun _ => 0,
   m.layer2.weight.map (List.map fun _ => 0),
   m.layer2.bias.map fun _ => 0⟩

/-- Sum of two gradient buffers. -/
def addGrads (g h : Grads) : Grads :=
  ⟨matAdd g.gW1 h.gW1, vecAdd g.gb1 h.gb1,
   matAdd g.gW2 h.gW2, vecAdd g.gb2 h.gb2⟩

/-- Scalar multiple of a gradient buffer. -/
def smulGrads (c : ℚ) (g : Grads) : Grads :=
  ⟨matSmul c g.gW1, vecSmul c g.gb1, matSmul c g.gW2, vecSmul c g.gb2⟩

/-- Pre-activation of the hidden layer: `self.layer1(x)`. -/
def hidden1 (m : SimpleNN) (x : Vec) : Vec := m.layer1.apply x

/-- Hidden activation: `self.relu(self.layer1(x))`. -/
def act1 (m : SimpleNN) (x : Vec) : Vec := reluVec (hidden1 m x)

/-- Adjoint of the network output for one sample: `out - t` (the
`MSELoss` scaling `2 / numel` is applied once in `lossGrads`). -/
def doutOf (m : SimpleNN) (x t : Vec) : Vec :=
  vecSub (m.layer2.apply (act1 m x)) t

/-- Adjoint of the hidden activation: `W2ᵀ · dout`. -/
def da1Of (m : SimpleNN) (x t : Vec) : Vec :=
  (List.zipWith vecSmul (doutOf m x t) m.layer2.weight).foldr vecAdd
    (List.replicate (act1 m x).length 0)

/-- Adjoint of the hidden pre-activation: the `ReLU` derivative is 1
where its input is positive and 0 elsewhere. -/
def dh1Of (m : SimpleNN) (x t : Vec) : Vec :=
  List.zipWith (fun d h => if 0 < h then d else 0) (da1Of m x t)
    (hidden1 m x)

/-- Reverse-mode gradient of the per-sample sum of squared errors
through `SimpleNN.forward`, by the chain rule: `∂L/∂W` is the outer
product of a layer's output adjoint with its input, `∂L/∂b` the output
adjoint itself. -/
def perSampleGrad (m : SimpleNN) (x t : Vec) : Grads :=
  ⟨outer (dh1Of m x t) x, dh1Of m x t,
   outer (doutOf m x t) (act1 m x), doutOf m x t⟩

/-- The call `loss.backward()` after `optimizer.zero_grad()`: the gradient of
the mean-squared-error loss with respect to every parameter,
accumulated into zeroed buffers sample by sample and scaled by the
derivative `2 / numel` of the mean reduction. -/
def lossGrads (m : SimpleNN) (X y : Mat) : Grads :=
  smulGrads (2 / ((((modelOutputs m X).map List.length).sum : ℕ) : ℚ))
    ((List.zipWith (perSampleGrad m) X y).foldr addGrads (zeroGradsOf m))

/-- The call `optimizer.step()` for `optim.SGD(model.parameters(), lr)`:
every parameter `p` becomes `p - lr * p.grad`. -/
def sgdStep (lr : ℚ) (m : SimpleNN) (g : Grads) : SimpleNN :=
  ⟨⟨matSub m.layer1.weight (matSmul lr g.gW1),
    vecSub m.layer1.bias (vecSmul lr g.gb1)⟩,
   ⟨matSub m.layer2.weight (matSmul lr g.gW2),
    vecSub m.layer2.bias (vecSmul lr g.gb2)⟩⟩

/-- The observable actions of one pass through the loop body, in
program order. -/
inductive Event where
  | forwardPass
  | lossComputation
  | zeroGrad
  | backwardPass
  | optimizerStep
  | printLoss (epoch : ℕ)
deriving DecidableEq, Repr

/-- The training loop from epoch `epoch` with `fuel` iterations left;
each iteration performs the body of cell 18 in program order and
records the corresponding events. -/
def trainLoopFrom (lr : ℚ) (X y : Mat) :
    ℕ → ℕ → SimpleNN → SimpleNN × List Event
  | _, 0, m => (m, [])
  | epoch, fuel + 1, m =>
    let outputs := modelOutputs m X
    let _loss := mseLoss outputs y
    let g := lossGrads m X y
    let m2 := sgdStep lr m g
    let these := [Event.forwardPass, Event.lossComputation, Event.zeroGrad,
        Event.backwardPass, Event.optimizerStep] ++
      (if (epoch + 1) % 20 = 0 then [Event.printLoss (epoch + 1)] else [])
    let rest := trainLoopFrom lr X y (epoch + 1) fuel m2
    (rest.1, these ++ rest.2)

/-- Cell 18's `for epoch in range(100)` loop. -/
def runTrainingLoop (lr : ℚ) (X y : Mat) (m : SimpleNN) :
    SimpleNN × List Event :=
  trainLoopFrom lr X y 0 100 m

/-! ### Cell 21: `CustomDataset` -/

/-- 1-D indexing of a tensor along its first dimension, as the
framework performs it: `none` is the framework's `IndexError` for an
out-of-range index. -/
def tensorIndex {α : Type} (t : List α) (idx : ℕ) : Option α :=
  t.get? idx

/-- The `CustomDataset` of cell 21: `__init__` stores `X` and `y`
unchecked. -/
structure CustomDataset where
  X : Mat
  y : Mat
deriving Repr, DecidableEq

/-- The method `CustomDataset.__len__`: `return len(self.X)`. -/
def CustomDataset.len (d : CustomDataset) : ℕ :=
  d.X.length

/-- The method `CustomDataset.__getitem__`: `return self.X[idx], self.y[idx]`.
Each indexing is the framework's own; a failure of either one
propagates unchanged (the method neither catches nor translates it). -/
def CustomDataset.getitem (d : CustomDataset) (idx : ℕ) : Option (Vec × Vec) :=
  (tensorIndex d.X idx).bind fun a =>
    (tensorIndex d.y idx).map fun b => (a, b)

/-! ### Cell 23: saving and loading `state_dict` -/

/-- The learnable parameters of a `SimpleNN`, as `state_dict()` returns
them: the weight and bias of each of the two layers. -/
structure StateDict where
  layer1Weight : Mat
  layer1Bias : Vec
  layer2Weight : Mat
  layer2Bias : Vec
deriving Repr, DecidableEq

/-- The call `model.state_dict()`. -/
def SimpleNN.stateDict (m : SimpleNN) : StateDict :=
  ⟨m.layer1.weight, m.layer1.bias, m.layer2.weight, m.layer2.bias⟩

/-- The call `model.load_state_dict(sd)`: overwrite every parameter with the
corresponding entry of `sd`. -/
def SimpleNN.loadStateDict (_ : SimpleNN) (sd : StateDict) : SimpleNN :=
  ⟨⟨sd.layer1Weight, sd.layer1Bias⟩, ⟨sd.layer2Weight, sd.layer2Bias⟩⟩

/-- The local file system seen by the notebook: an association list
from paths to serialized state dicts. -/
def Store := List (String × StateDict)

/-- The call `torch.save(sd, path)`: write the file. -/
def torchSave (s : Store) (path : String) (sd : StateDict) : Store :=
  (path, sd) :: s

/-- Raw file read: `none` is the framework's error for a missing
file. -/
def fileRead (s : Store) (path : String) : Option StateDict :=
  List.lookup path s

/-- The call `torch.load(path)`: read the file back and deserialize; a read
failure propagates unchanged. -/
def torchLoad (s : Store) (path : String) : Option StateDict :=
  fileRead s path

/-- A file-system access performed by a cell. -/
inductive FileEvent where
  | write (path : String)
  | read (path : String)
deriving DecidableEq, Repr

/-- The file accesses of each code cell of the notebook, in cell order.
Only cell 23 touches the file system: `torch.save(model.state_dict(),
'model.pth')` then `torch.load('model.pth')`. -/
def cellFileEvents : List (List FileEvent) :=
  [ [],                                              -- cell 6: tensor creation
    [],                                              -- cell 8: tensor constructors
    [],                                              -- cell 10: arithmetic
    [],                                              -- cell 12: device selection
    [],                                              -- cell 14: autograd
    [],                                              -- cell 16: SimpleNN definition
    [],                                              -- cell 18: training loop
    [],                                              -- cell 21: CustomDataset / DataLoader
    [FileEvent.write "model.pth", FileEvent.read "model.pth"],  -- cell 23
    [],                                              -- cell 25: train/eval modes
    [] ]                                             -- cell 27: layer constructors

/-- All file accesses the notebook performs, in execution order. -/
def notebookFileEvents : List FileEvent :=
  cellFileEvents.flatten

/-! ### Cross-cell data flow

Cell 18 assigns the globals `X`, `y` and `model`; cell 21 then runs
`dataset = CustomDataset(X, y)` and cell 23 runs
`torch.save(model.state_dict(), 'model.pth')` against those same
globals. -/

/-- Cell 21's `dataset = CustomDataset(X, y)`, as a function of the
training cell's globals `X` and `y` that it reads. -/
def datasetCell (X y : Mat) : CustomDataset := ⟨X, y⟩

/-- The state dict cell 23 persists, as a function of the training
cell's global `model` that it reads. -/
def saveLoadCellDict (model : SimpleNN) : StateDict := model.stateDict

/-! ## Helper lemmas -/

/-- Shape of a matrix: `r` rows, each of length `c`. -/
def matShape (A : Mat) (r c : ℕ) : Prop :=
  A.length = r ∧ ∀ row ∈ A, row.length = c

instance (A : Mat) (r c : ℕ) : Decidable (matShape A r c) := by
  unfold matShape; infer_instance

/-- The shapes the four gradient buffers must have for the `SimpleNN`
of cell 16. -/
def gradsShape (g : Grads) : Prop :=
  matShape g.gW1 5 10 ∧ g.gb1.length = 5 ∧
    matShape g.gW2 1 5 ∧ g.gb2.length = 1

lemma mkLinear_hasShape (inF outF : ℕ) (w : ℕ → ℕ → ℚ) (b : ℕ → ℚ) :
    (mkLinear inF outF w b).hasShape inF outF := by
  refine ⟨by simp [mkLinear], ?_, by simp [mkLinear]⟩
  intro r hr
  simp only [mkLinear, List.mem_map, List.mem_range] at hr
  obtain ⟨i, -, rfl⟩ := hr
  simp

lemma Linear.length_apply (l : Linear) (x : Vec) :
    (l.apply x).length = min l.weight.length l.bias.length := by
  simp [Linear.apply]

lemma length_reluVec (v : Vec) : (reluVec v).length = v.length := by
  simp [reluVec]

lemma SimpleNN.length_forward (m : SimpleNN) (hm : m.wf) (x : Vec) :
    (m.forward x).length = 1 := by
  obtain ⟨-, h2w, -, h2b⟩ := hm
  simp [SimpleNN.forward, Linear.length_apply, h2w, h2b]

/-! ## Claim theorems -/

/-- C8: the device-selection cell is a total function of the two
availability flags, assigning exactly one device: `mps` iff MPS is
available, `cuda` iff MPS is not available but CUDA is, and `cpu` iff
neither is — exhaustive and mutually exclusive in that priority
order. -/
theorem deviceSelection_exhaustive_priority (m c : Bool) :
    (selectDevice m c = Device.mps ↔ m = true) ∧
    (selectDevice m c = Device.cuda ↔ (m = false ∧ c = true)) ∧
    (selectDevice m c = Device.cpu ↔ (m = false ∧ c = false)) := by
  cases m <;> cases c <;> decide

/-- C9: on the 1-D integer tensors `a = [1, 2, 3]` and `b = [4, 5, 6]`,
`torch.matmul` returns the scalar dot product `1*4 + 2*5 + 3*6 = 32`,
whereas elementwise `a * b` returns the tensor `[4, 10, 18]`, with
exact integer arithmetic. -/
theorem matmul_dot_vs_elementwise :
    matmul1d tensorA tensorB = 32 ∧
    matmul1d tensorA tensorB = 1 * 4 + 2 * 5 + 3 * 6 ∧
    elemMul tensorA tensorB = [4, 10, 18] := by
  decide

/-- C2: after building `z = x**2 + y**3` from the tracked leaves
`x = 2.0` and `y = 3.0` and running one backward pass (seed 1),
reverse accumulation yields `x.grad = 2*x = 4.0` and
`y.grad = 3*y**2 = 27.0`. -/
theorem autograd_reverse_accumulation_grads :
    autogradZ.grad 0 = 4 ∧ autogradZ.grad 1 = 27 ∧
    autogradZ.grad 0 = 2 * autogradX.eval ∧
    autogradZ.grad 1 = 3 * autogradY.eval ^ 2 := by
  norm_num [Expr.grad, autogradZ, autogradX, autogradY, Expr.backward,
    Expr.eval]

/-- C3: for every input `x`, `SimpleNN.forward x` equals
`layer2(ReLU(layer1(x)))`; `layer1` is the affine transform
`nn.Linear(10, 5)` (weight `5 × 10`, bias of length 5) and `layer2`
the affine transform `nn.Linear(5, 1)`, so `layer1` produces 5
features and the forward output has 1 feature; the network holds
exactly these two linear sub-objects. -/
theorem simpleNN_forward_decomposition (w1 : ℕ → ℕ → ℚ) (b1 : ℕ → ℚ)
    (w2 : ℕ → ℕ → ℚ) (b2 : ℕ → ℚ) (x : Vec) :
    (SimpleNN.init w1 b1 w2 b2).forward x =
      (SimpleNN.init w1 b1 w2 b2).layer2.apply
        (reluVec ((SimpleNN.init w1 b1 w2 b2).layer1.apply x)) ∧
    (SimpleNN.init w1 b1 w2 b2).layer1.hasShape 10 5 ∧
    (SimpleNN.init w1 b1 w2 b2).layer2.hasShape 5 1 ∧
    ((SimpleNN.init w1 b1 w2 b2).layer1.apply x).length = 5 ∧
    ((SimpleNN.init w1 b1 w2 b2).forward x).length = 1 := by
  have h1 := mkLinear_hasShape 10 5 w1 b1
  have h2 := mkLinear_hasShape 5 1 w2 b2
  refine ⟨rfl, h1, h2, ?_, ?_⟩
  · simp [SimpleNN.init, Linear.length_apply, h1.1, h1.2.2]
  · exact SimpleNN.length_forward _ ⟨h1, h2⟩ x

/-- C4: starting from any file-system state, saving
`model.state_dict()` to `'model.pth'` and loading that path into a
freshly constructed `SimpleNN` is a round trip — the load succeeds and
the loaded model's `state_dict` (all four parameter tensors) equals the
saved model's — and the write/read pair of cell 23 is the only file
access the notebook performs. -/
theorem stateDict_saveLoad_roundTrip (s : Store) (model fresh : SimpleNN) :
    (torchLoad (torchSave s "model.pth" model.stateDict) "model.pth").map
        (fun sd => (fresh.loadStateDict sd).stateDict) =
      some model.stateDict ∧
    notebookFileEvents = [FileEvent.write "model.pth",
      FileEvent.read "model.pth"] := by
  constructor
  · simp [torchLoad, fileRead, torchSave, List.lookup,
      SimpleNN.loadStateDict, SimpleNN.stateDict]
  · rfl

/-- C5 counterexample: a `CustomDataset` whose `y` is shorter than its
`X` (the constructor stores both unchecked); at the in-range-for-`X`
index 1, `__getitem__` does not return the claimed pair — the indexing
of `y` fails. -/
theorem getitem_out_of_range_y :
    1 < (CustomDataset.mk [[0], [1]] [[0]]).X.length ∧
    (CustomDataset.mk [[0], [1]] [[0]]).getitem 1 = none := by
  decide

/-- C5 (amended): for every `CustomDataset(X, y)` and every index
`idx` in range for both `X` and `y`, `__getitem__(idx)` returns
exactly the pair `(X[idx], y[idx])`, and `__len__()` returns the
number of samples in `X`. -/
theorem getitem_pair_spec (d : CustomDataset) (idx : ℕ)
    (hX : idx < d.X.length) (hy : idx < d.y.length) :
    d.getitem idx = some (d.X.get ⟨idx, hX⟩, d.y.get ⟨idx, hy⟩) ∧
    d.len = d.X.length := by
  constructor
  · simp [CustomDataset.getitem, tensorIndex, List.get?_eq_get, hX, hy]
  · rfl

theorem getitem_pair_spec_witness :
    0 < (CustomDataset.mk [[(1 : ℚ)]] [[(2 : ℚ)]]).X.length ∧
    0 < (CustomDataset.mk [[(1 : ℚ)]] [[(2 : ℚ)]]).y.length ∧
    ((CustomDataset.mk [[(1 : ℚ)]] [[(2 : ℚ)]]).getitem 0 =
      some ((CustomDataset.mk [[(1 : ℚ)]] [[(2 : ℚ)]]).X.get ⟨0, by decide⟩,
        (CustomDataset.mk [[(1 : ℚ)]] [[(2 : ℚ)]]).y.get ⟨0, by decide⟩) ∧
     (CustomDataset.mk [[(1 : ℚ)]] [[(2 : ℚ)]]).len =
       (CustomDataset.mk [[(1 : ℚ)]] [[(2 : ℚ)]]).X.length) :=
  ⟨by decide, by decide, getitem_pair_spec _ 0 (by decide) (by decide)⟩

/-- C6: failures surface unchanged from the framework primitives: an
out-of-range index makes `CustomDataset.__getitem__` propagate the
indexing failure itself (no catch, no translation), and `torch.load`
on a path the file system does not hold propagates the read failure
itself. -/
theorem framework_errors_propagate :
    (∀ (d : CustomDataset) (idx : ℕ), d.X.length ≤ idx →
      d.getitem idx = tensorIndex d.X idx >>= fun _ => none) ∧
    (∀ (s : Store) (path : String), fileRead s path = none →
      torchLoad s path = none) := by
  constructor
  · intro d idx h
    have hx : d.X[idx]? = none := List.getElem?_eq_none h
    simp [CustomDataset.getitem, tensorIndex, hx]
  · intro s path h
    simp [torchLoad, h]

theorem framework_errors_propagate_witness :
    ((CustomDataset.mk [[(1 : ℚ)]] [[(1 : ℚ)]]).X.length ≤ 3 ∧
      (CustomDataset.mk [[(1 : ℚ)]] [[(1 : ℚ)]]).getitem 3 =
        tensorIndex (CustomDataset.mk [[(1 : ℚ)]] [[(1 : ℚ)]]).X 3 >>=
          fun _ => none) ∧
    (fileRead ([] : Store) "model.pth" = none ∧
      torchLoad ([] : Store) "model.pth" = none) :=
  ⟨⟨by decide, framework_errors_propagate.1 _ 3 (by decide)⟩,
   ⟨rfl, framework_errors_propagate.2 [] "model.pth" rfl⟩⟩

/-- C7 counterexample: changing the training cell's `X` (here from
`[[1]]` to `[[2]]`) changes the dataset built by the
dataset-construction snippet, and changing the training cell's `model`
changes the state dict written by the save/load snippet — the snippets
are not isolated from the training cell. -/
theorem snippets_share_training_globals_cex :
    datasetCell [[1]] [[0]] ≠ datasetCell [[2]] [[0]] ∧
    saveLoadCellDict ⟨⟨[[1]], [0]⟩, ⟨[[1]], [0]⟩⟩ ≠
      saveLoadCellDict ⟨⟨[[2]], [0]⟩, ⟨[[1]], [0]⟩⟩ := by
  constructor <;> decide

/-- C7 (amended): the dataset-construction snippet and the save/load
snippet read the training cell's globals: the constructed dataset is
exactly `CustomDataset(X, y)` for the training cell's `X` and `y`, and
the persisted dict is exactly `model.state_dict()` of the training
cell's `model` — so their values change exactly when those globals
change. -/
theorem snippets_read_training_globals (X₁ X₂ y₁ y₂ : Mat)
    (m₁ m₂ : SimpleNN) :
    datasetCell X₁ y₁ = CustomDataset.mk X₁ y₁ ∧
    saveLoadCellDict m₁ = m₁.stateDict ∧
    (datasetCell X₁ y₁ = datasetCell X₂ y₂ ↔ (X₁ = X₂ ∧ y₁ = y₂)) ∧
    (saveLoadCellDict m₁ = saveLoadCellDict m₂ ↔
      m₁.stateDict = m₂.stateDict) := by
  refine ⟨rfl, rfl, ?_, Iff.rfl⟩
  simp [datasetCell, CustomDataset.mk.injEq]

lemma trainLoopFrom_events (lr : ℚ) (X y : Mat) :
    ∀ (fuel e : ℕ) (m : SimpleNN),
      (trainLoopFrom lr X y e fuel m).2 =
        (List.range' e fuel).flatMap fun epoch =>
          [Event.forwardPass, Event.lossComputation, Event.zeroGrad,
           Event.backwardPass, Event.optimizerStep] ++
          (if (epoch + 1) % 20 = 0 then [Event.printLoss (epoch + 1)]
           else []) := by
  intro fuel
  induction fuel with
  | zero => intro e m; simp [trainLoopFrom]
  | succ f ih =>
    intro e m
    rw [List.range'_succ, List.flatMap_cons, ← ih (e + 1)
      (sgdStep lr m (lossGrads m X y))]
    rfl

lemma mem_ite_singleton_nil {α : Type} (c : Prop) [Decidable c]
    (a x : α) : (a ∈ if c then [x] else []) ↔ (c ∧ a = x) := by
  split <;> simp_all

/-- C1: every iteration of cell 18's loop performs, in this order, the
forward pass, the MSE loss computation, the zeroing of the parameter
gradients, the backward pass, and one SGD step; the loop runs for
exactly the 100 epochs of `range(100)`, and a loss line is printed
exactly at those epochs where `epoch + 1` is a multiple of 20. -/
theorem trainingLoop_order_and_schedule (lr : ℚ) (X y : Mat)
    (m : SimpleNN) :
    (runTrainingLoop lr X y m).2 =
      ((List.range 100).flatMap fun epoch =>
        [Event.forwardPass, Event.lossComputation, Event.zeroGrad,
         Event.backwardPass, Event.optimizerStep] ++
        (if (epoch + 1) % 20 = 0 then [Event.printLoss (epoch + 1)]
         else [])) ∧
    (∀ epoch : ℕ,
      Event.printLoss (epoch + 1) ∈ (runTrainingLoop lr X y m).2 ↔
        (epoch < 100 ∧ 20 ∣ (epoch + 1))) := by
  have h : (runTrainingLoop lr X y m).2 =
      (List.range 100).flatMap fun epoch =>
        [Event.forwardPass, Event.lossComputation, Event.zeroGrad,
         Event.backwardPass, Event.optimizerStep] ++
        (if (epoch + 1) % 20 = 0 then [Event.printLoss (epoch + 1)]
         else []) := by
    rw [List.range_eq_range']
    exact trainLoopFrom_events lr X y 100 0 m
  refine ⟨h, fun epoch => ?_⟩
  rw [h]
  constructor
  · intro hmem
    rw [List.mem_flatMap] at hmem
    obtain ⟨e, he, hmem⟩ := hmem
    rw [List.mem_range] at he
    rcases List.mem_append.mp hmem with h1 | h1
    · simp at h1
    · rw [mem_ite_singleton_nil] at h1
      obtain ⟨hc, h1⟩ := h1
      have he' : epoch = e := by
        have := Event.printLoss.inj h1
        omega
      subst he'
      exact ⟨he, (Nat.dvd_iff_mod_eq_zero).mpr hc⟩
  · rintro ⟨he, hc⟩
    rw [List.mem_flatMap]
    refine ⟨epoch, List.mem_range.mpr he, List.mem_append.mpr
      (Or.inr ?_)⟩
    rw [mem_ite_singleton_nil]
    exact ⟨(Nat.dvd_iff_mod_eq_zero).mp hc, rfl⟩

/-! ## Shape lemmas for the training step -/

lemma length_vecAdd (a b : Vec) :
    (vecAdd a b).length = min a.length b.length := by
  simp [vecAdd]

lemma length_vecSub (a b : Vec) :
    (vecSub a b).length = min a.length b.length := by
  simp [vecSub]

lemma length_vecSmul (c : ℚ) (v : Vec) :
    (vecSmul c v).length = v.length := by
  simp [vecSmul]

lemma rows_zipWith_rows (f : Vec → Vec → Vec) (c : ℕ)
    (hf : ∀ a b, a.length = c → b.length = c → (f a b).length = c) :
    ∀ (A B : Mat), (∀ r ∈ A, r.length = c) → (∀ r ∈ B, r.length = c) →
      ∀ r ∈ List.zipWith f A B, r.length = c := by
  intro A
  induction A with
  | nil => intro B _ _ r hr; simp at hr
  | cons a A ih =>
    intro B hA hB r hr
    cases B with
    | nil => simp at hr
    | cons b B =>
      rw [List.zipWith_cons_cons] at hr
      rcases List.mem_cons.mp hr with h | h
      · subst h
        exact hf a b (hA a (by simp)) (hB b (by simp))
      · exact ih B (fun s hs => hA s (by simp [hs]))
          (fun s hs => hB s (by simp [hs])) r h

lemma matShape_matAdd {A B : Mat} {r c : ℕ} (hA : matShape A r c)
    (hB : matShape B r c) : matShape (matAdd A B) r c := by
  refine ⟨by simp [matAdd, hA.1, hB.1], ?_⟩
  exact rows_zipWith_rows vecAdd c
    (fun a b ha hb => by simp [length_vecAdd, ha, hb]) A B hA.2 hB.2

lemma matShape_matSub {A B : Mat} {r c : ℕ} (hA : matShape A r c)
    (hB : matShape B r c) : matShape (matSub A B) r c := by
  refine ⟨by simp [matSub, hA.1, hB.1], ?_⟩
  exact rows_zipWith_rows vecSub c
    (fun a b ha hb => by simp [length_vecSub, ha, hb]) A B hA.2 hB.2

lemma matShape_matSmul {A : Mat} {r c : ℕ} (k : ℚ)
    (hA : matShape A r c) : matShape (matSmul k A) r c := by
  refine ⟨by simp [matSmul, hA.1], ?_⟩
  intro row hrow
  simp only [matSmul, List.mem_map] at hrow
  obtain ⟨row0, h0, rfl⟩ := hrow
  simp [length_vecSmul, hA.2 row0 h0]

lemma matShape_outer {u v : Vec} {r c : ℕ} (hu : u.length = r)
    (hv : v.length = c) : matShape (outer u v) r c := by
  refine ⟨by simp [outer, hu], ?_⟩
  intro row hrow
  simp only [outer, List.mem_map] at hrow
  obtain ⟨ui, -, rfl⟩ := hrow
  simp [hv]

lemma matShape_map_zero {A : Mat} {r c : ℕ} (hA : matShape A r c) :
    matShape (A.map (List.map fun _ => (0 : ℚ))) r c := by
  refine ⟨by simp [hA.1], ?_⟩
  intro row hrow
  simp only [List.mem_map] at hrow
  obtain ⟨row0, h0, rfl⟩ := hrow
  simp [hA.2 row0 h0]

lemma gradsShape_addGrads {g h : Grads} (hg : gradsShape g)
    (hh : gradsShape h) : gradsShape (addGrads g h) := by
  exact ⟨matShape_matAdd hg.1 hh.1,
    by simp [addGrads, length_vecAdd, hg.2.1, hh.2.1],
    matShape_matAdd hg.2.2.1 hh.2.2.1,
    by simp [addGrads, length_vecAdd, hg.2.2.2, hh.2.2.2]⟩

lemma gradsShape_smulGrads {g : Grads} (k : ℚ) (hg : gradsShape g) :
    gradsShape (smulGrads k g) := by
  exact ⟨matShape_matSmul k hg.1,
    by simp [smulGrads, length_vecSmul, hg.2.1],
    matShape_matSmul k hg.2.2.1,
    by simp [smulGrads, length_vecSmul, hg.2.2.2]⟩

lemma gradsShape_zeroGradsOf {m : SimpleNN} (hm : m.wf) :
    gradsShape (zeroGradsOf m) := by
  obtain ⟨⟨h1w, h1r, h1b⟩, ⟨h2w, h2r, h2b⟩⟩ := hm
  exact ⟨matShape_map_zero ⟨h1w, h1r⟩, by simp [zeroGradsOf, h1b],
    matShape_map_zero ⟨h2w, h2r⟩, by simp [zeroGradsOf, h2b]⟩

lemma length_hidden1 {m : SimpleNN} (hm : m.wf) (x : Vec) :
    (hidden1 m x).length = 5 := by
  simp [hidden1, Linear.length_apply, hm.1.1, hm.1.2.2]

lemma length_act1 {m : SimpleNN} (hm : m.wf) (x : Vec) :
    (act1 m x).length = 5 := by
  simp [act1, length_reluVec, length_hidden1 hm]

lemma length_doutOf {m : SimpleNN} (hm : m.wf) (x t : Vec)
    (ht : t.length = 1) : (doutOf m x t).length = 1 := by
  simp [doutOf, length_vecSub, Linear.length_apply, hm.2.1, hm.2.2.2, ht]

lemma length_foldr_vecAdd (n : ℕ) :
    ∀ (dout : Vec) (W : Mat), (∀ r ∈ W, r.length = n) →
      ((List.zipWith vecSmul dout W).foldr vecAdd
        (List.replicate n 0)).length = n := by
  intro dout
  induction dout with
  | nil => intro W _; simp
  | cons d dout ih =>
    intro W hW
    cases W with
    | nil => simp
    | cons w W =>
      rw [List.zipWith_cons_cons, List.foldr_cons]
      have h1 := ih W (fun r hr => hW r (by simp [hr]))
      have h2 : (vecSmul d w).length = n := by
        simp [length_vecSmul, hW w (by simp)]
      simp [length_vecAdd, h1, h2]

lemma length_da1Of {m : SimpleNN} (hm : m.wf) (x t : Vec) :
    (da1Of m x t).length = 5 := by
  have ha : (act1 m x).length = 5 := length_act1 hm x
  have h := length_foldr_vecAdd (act1 m x).length (doutOf m x t)
    m.layer2.weight (fun r hr => by rw [hm.2.2.1 r hr, ha])
  rw [da1Of, h, ha]

lemma length_dh1Of {m : SimpleNN} (hm : m.wf) (x t : Vec) :
    (dh1Of m x t).length = 5 := by
  simp [dh1Of, length_da1Of hm, length_hidden1 hm]

lemma gradsShape_perSampleGrad {m : SimpleNN} (hm : m.wf) {x t : Vec}
    (hx : x.length = 10) (ht : t.length = 1) :
    gradsShape (perSampleGrad m x t) := by
  exact ⟨matShape_outer (length_dh1Of hm x t) hx, length_dh1Of hm x t,
    matShape_outer (length_doutOf hm x t ht) (length_act1 hm x),
    length_doutOf hm x t ht⟩

lemma gradsShape_fold {m : SimpleNN} (hm : m.wf) :
    ∀ (X y : Mat) (z : Grads), (∀ s ∈ X, s.length = 10) →
      (∀ t ∈ y, t.length = 1) → gradsShape z →
      gradsShape ((List.zipWith (perSampleGrad m) X y).foldr addGrads z) := by
  intro X
  induction X with
  | nil => intro y z _ _ hz; simpa
  | cons x X ih =>
    intro y z hX hy hz
    cases y with
    | nil => simpa
    | cons t y =>
      rw [List.zipWith_cons_cons, List.foldr_cons]
      exact gradsShape_addGrads
        (gradsShape_perSampleGrad hm (hX x (by simp)) (hy t (by simp)))
        (ih y z (fun s hs => hX s (by simp [hs]))
          (fun u hu => hy u (by simp [hu])) hz)

lemma gradsShape_lossGrads {m : SimpleNN} {X y : Mat} (hm : m.wf)
    (hX : ∀ s ∈ X, s.length = 10) (hy : ∀ t ∈ y, t.length = 1) :
    gradsShape (lossGrads m X y) := by
  exact gradsShape_smulGrads _
    (gradsShape_fold hm X y _ hX hy (gradsShape_zeroGradsOf hm))

lemma wf_sgdStep (lr : ℚ) {m : SimpleNN} {g : Grads} (hm : m.wf)
    (hg : gradsShape g) : (sgdStep lr m g).wf := by
  obtain ⟨⟨h1w, h1r, h1b⟩, ⟨h2w, h2r, h2b⟩⟩ := hm
  obtain ⟨hW1, hb1, hW2, hb2⟩ := hg
  have s1 := matShape_matSub ⟨h1w, h1r⟩ (matShape_matSmul lr hW1)
  have s2 := matShape_matSub ⟨h2w, h2r⟩ (matShape_matSmul lr hW2)
  exact ⟨⟨s1.1, s1.2, by simp [sgdStep, length_vecSub, length_vecSmul,
      h1b, hb1]⟩,
    ⟨s2.1, s2.2, by simp [sgdStep, length_vecSub, length_vecSmul,
      h2b, hb2]⟩⟩

lemma wf_trainLoopFrom (lr : ℚ) {X y : Mat}
    (hX : ∀ s ∈ X, s.length = 10) (hy : ∀ t ∈ y, t.length = 1) :
    ∀ (fuel e : ℕ) (m : SimpleNN), m.wf →
      ((trainLoopFrom lr X y e fuel m).1).wf := by
  intro fuel
  induction fuel with
  | zero => intro e m hm; simpa [trainLoopFrom]
  | succ f ih =>
    intro e m hm
    have hstep := wf_sgdStep lr hm (gradsShape_lossGrads hm hX hy)
    exact ih (e + 1) (sgdStep lr m (lossGrads m X y)) hstep

/-- C10: every iteration of the training loop preserves the model's
parameter set and shapes: after any number of iterations the model is
still well-formed — `layer1` still has a `5 × 10` weight matrix and a
5-entry bias, `layer2` a `1 × 5` weight matrix and a 1-entry bias — so
`layer1` still produces 5 features and the forward pass 1 feature. -/
theorem trainingLoop_preserves_shapes (lr : ℚ) (X y : Mat)
    (m : SimpleNN) (hm : m.wf) (hX : ∀ s ∈ X, s.length = 10)
    (hy : ∀ t ∈ y, t.length = 1) (fuel e : ℕ) :
    ((trainLoopFrom lr X y e fuel m).1).wf ∧
    ∀ x : Vec,
      ((((trainLoopFrom lr X y e fuel m).1).layer1.apply x).length = 5 ∧
       (((trainLoopFrom lr X y e fuel m).1).forward x).length = 1) := by
  have hw := wf_trainLoopFrom lr hX hy fuel e m hm
  refine ⟨hw, fun x => ⟨?_, SimpleNN.length_forward _ hw x⟩⟩
  simp [Linear.length_apply, hw.1.1, hw.1.2.2]

theorem trainingLoop_preserves_shapes_witness :
    (SimpleNN.init (fun _ _ => 1) (fun _ => 0)
      (fun _ _ => 1) (fun _ => 0)).wf ∧
    (∀ s ∈ ([] : Mat), s.length = 10) ∧
    (∀ t ∈ ([] : Mat), t.length = 1) ∧
    (((trainLoopFrom (1 / 100) [] [] 0 1
        (SimpleNN.init (fun _ _ => 1) (fun _ => 0)
          (fun _ _ => 1) (fun _ => 0))).1).wf ∧
     ∀ x : Vec,
       ((((trainLoopFrom (1 / 100) [] [] 0 1
          (SimpleNN.init (fun _ _ => 1) (fun _ => 0)
            (fun _ _ => 1) (fun _ => 0))).1).layer1.apply x).length = 5 ∧
        (((trainLoopFrom (1 / 100) [] [] 0 1
          (SimpleNN.init (fun _ _ => 1) (fun _ => 0)
            (fun _ _ => 1) (fun _ => 0))).1).forward x).length = 1)) :=
  ⟨⟨mkLinear_hasShape 10 5 _ _, mkLinear_hasShape 5 1 _ _⟩,
   by simp, by simp,
   trainingLoop_preserves_shapes (1 / 100) [] []
     (SimpleNN.init (fun _ _ => 1) (fun _ => 0)
       (fun _ _ => 1) (fun _ => 0))
     ⟨mkLinear_hasShape 10 5 _ _, mkLinear_hasShape 5 1 _ _⟩
     (by simp) (by simp) 1 0⟩

end Lecture09
